import Mathlib

/-
Shallow embedding of the block-subscription and ordering engine of the
`eth` crate (src/eth/src/lib.rs, src/eth/src/subscription.rs).

Machine integers (u64) are modelled as Nat: none of the embedded code paths
perform arithmetic that can overflow a u64 on the inputs the claims range
over, and the source never relies on wrapping.  Rust's remainder operator
panics on a zero divisor; that is modelled explicitly (see u64_rem).
Fallible operations return Except, mirroring Result.  External RPC calls
are modelled as oracle functions on the provider, indexed by a call
counter, so that responses may differ between successive calls exactly as
a real network's may.
-/

namespace Eth

/-- Rust's derived Ord on Option<u64>: None sorts before Some, Some compares
the payloads.  This is the sort key order used by sort_by_key on the
transaction_index fields. -/
def optLe : Option Nat → Option Nat → Bool
  | none, _ => true
  | some _, none => false
  | some a, some b => a ≤ b

/-- Strict version of optLe, used only to state that the produced pair
sequence is strictly ascending in reported transaction index. -/
def optLt : Option Nat → Option Nat → Bool
  | none, none => false
  | none, some _ => true
  | some _, none => false
  | some a, some b => a < b

/-- alloy rpc Transaction, reduced to the fields the embedded code reads:
the reported transaction_index (an Option<u64> in alloy) used as sort key,
and an opaque payload standing for all remaining fields. -/
structure Transaction where
  transaction_index : Option Nat
  payload : Nat
deriving DecidableEq

/-- alloy TransactionReceipt, reduced in the same way as Transaction. -/
structure TransactionReceipt where
  transaction_index : Option Nat
  payload : Nat
deriving DecidableEq

/-- Modelled from the spec: BlockItemIdentifier lives in the utils crate,
which is not under src/.  Per the spec's data model it is the pair
(block number, sequence index). -/
structure BlockItemIdentifier where
  block_number : Nat
  index : Nat
deriving DecidableEq

/-- Modelled from the spec: constructor of BlockItemIdentifier
(utils crate, not under src/). -/
def BlockItemIdentifier.new (block_number index : Nat) : BlockItemIdentifier :=
  ⟨block_number, index⟩

/-- alloy ConversionError: an opaque error type.  TxRx::try_create can name
it but never constructs it, so no constructor is needed here. -/
inductive ConversionError

instance : DecidableEq ConversionError := fun a => nomatch a

/-- TxRx: one matched transaction/receipt pair with its identifier
(src/eth/src/lib.rs, struct TxRx). -/
structure TxRx where
  id : BlockItemIdentifier
  tx : Transaction
  rx : TransactionReceipt
deriving DecidableEq

/-- TxRx::try_create (src/eth/src/lib.rs:76-82): wraps the fields, always Ok. -/
def TxRx.try_create (id : BlockItemIdentifier) (tx : Transaction)
    (rx : TransactionReceipt) : Except ConversionError TxRx :=
  .ok ⟨id, tx, rx⟩

/-- Error enum of the eth crate (src/eth/src/lib.rs:36-66).  Variants whose
Rust payloads are foreign error values are modelled payload-free. -/
inductive Error where
  | FailedToGetBlock (n : Nat)
  | FailedToGetReceipts (n : Nat)
  | TransactionsReceiptsMismatch (n : Nat)
  | NotFullTransactionsFetched (n : Nat)
  | FailedToGetChainId
  | EthError
  | ClientError
  | TransactionConversion (e : ConversionError)
  | EndOfSubscription
  | FailedToGetSyncInfo
  | SendError
  | NoWalletConfigured
  | HexDecodingError
deriving DecidableEq

/-- OrderedBlock (src/eth/src/lib.rs:119-125): chain id, number, hash and
the ordered transaction/receipt pairs.  The 32-byte hash is opaque here. -/
structure OrderedBlock where
  chain_id : Nat
  number : Nat
  hash : Nat
  items : List TxRx
deriving DecidableEq

/-- Rust's Iterator::collect::<Result<Vec<_>, _>>(): succeeds with the list
of payloads when every element is Ok, otherwise fails with the first Err. -/
def collectExcept : List (Except ε α) → Except ε (List α)
  | [] => .ok []
  | x :: xs => do
    let a ← x
    let rest ← collectExcept xs
    .ok (a :: rest)

/-- OrderedBlock::try_create (src/eth/src/lib.rs:128-157): stably sort the
transactions and receipts by reported transaction_index (Vec::sort_by_key
is stable), zip positionally, enumerate, and tag pair i with identifier
(number, i). -/
def OrderedBlock.try_create (chain_id number hash : Nat)
    (transactions : List Transaction) (receipts : List TransactionReceipt) :
    Except ConversionError OrderedBlock := do
  let transactions := transactions.mergeSort
    (fun a b => optLe a.transaction_index b.transaction_index)
  let receipts := receipts.mergeSort
    (fun a b => optLe a.transaction_index b.transaction_index)
  let items ← collectExcept ((transactions.zip receipts).enum.map
    (fun p => TxRx.try_create (BlockItemIdentifier.new number p.1) p.2.1 p.2.2))
  .ok { chain_id := chain_id, number := number, hash := hash, items := items }

/-- alloy BlockTransactions: either materialized transaction bodies, only
their hashes, or an uncle block's (absent) transactions. -/
inductive BlockTransactions where
  | Full (txs : List Transaction)
  | Hashes (hs : List Nat)
  | Uncle
deriving DecidableEq

/-- alloy BlockTransactions::len(): number of entries in whichever variant. -/
def BlockTransactions.len : BlockTransactions → Nat
  | .Full txs => txs.length
  | .Hashes hs => hs.length
  | .Uncle => 0

/-- alloy BlockTransactions::into_transactions(): the transaction bodies for
the Full variant, and an empty iterator for Hashes and Uncle. -/
def BlockTransactions.into_transactions : BlockTransactions → List Transaction
  | .Full txs => txs
  | .Hashes _ => []
  | .Uncle => []

/-- alloy block header, reduced to the field the embedded code reads. -/
structure Header where
  hash : Nat
deriving DecidableEq

/-- alloy rpc Block, reduced to the fields the embedded code reads. -/
structure Block where
  header : Header
  transactions : BlockTransactions
deriving DecidableEq

/-- The remote node behind the alloy provider, as response oracles: for a
call made at logical time t about block n, the response is
none (transport error), some none (null response: block unknown), or
some (some v).  The time index lets successive identical requests receive
different answers, as on a real network. -/
structure Provider where
  block_resp : Nat → Nat → Option (Option Block)
  receipts_resp : Nat → Nat → Option (Option (List TransactionReceipt))

/-- Client (src/eth/src/lib.rs:208-217), reduced to the fields the embedded
operations read (url and private_key feed only the signing/transport code,
which is out of scope). -/
structure Client where
  chain_id : Nat
  http : Provider

/-- Client::get_eth_block (src/eth/src/lib.rs:361-373): transport errors and
missing blocks both become FailedToGetBlock. -/
def Client.get_eth_block (c : Client) (t number : Nat) : Except Error Block :=
  match c.http.block_resp t number with
  | none => .error (.FailedToGetBlock number)
  | some none => .error (.FailedToGetBlock number)
  | some (some b) => .ok b

/-- Client::get_receipts (src/eth/src/lib.rs:350-359): transport errors become
FailedToGetReceipts; a null response becomes FailedToGetBlock (the source's
ok_or uses FailedToGetBlock). -/
def Client.get_receipts (c : Client) (t number : Nat) :
    Except Error (List TransactionReceipt) :=
  match c.http.receipts_resp t number with
  | none => .error (.FailedToGetReceipts number)
  | some none => .error (.FailedToGetBlock number)
  | some (some rs) => .ok rs

/-- Client::get_block (src/eth/src/lib.rs:300-326): join the two fetches
(fail-fast), reject a length mismatch between the block's transaction
entries and the receipts, then build the OrderedBlock from the
materialized transactions. -/
def Client.get_block (c : Client) (t number : Nat) : Except Error OrderedBlock :=
  match c.get_eth_block t number with
  | .error e => .error e
  | .ok block =>
    match c.get_receipts t number with
    | .error e => .error e
    | .ok receipts =>
      if block.transactions.len ≠ receipts.length then
        .error (.TransactionsReceiptsMismatch number)
      else
        let transactions := block.transactions.into_transactions
        (OrderedBlock.try_create c.chain_id number block.header.hash
          transactions receipts).mapError .TransactionConversion

/-- SubscriptionConfig (src/eth/src/subscription.rs:141-144). -/
structure SubscriptionConfig where
  start_block : Nat
  end_block : Nat
deriving DecidableEq

/-- BlockFetcher (src/eth/src/subscription.rs:96-100): range catch-up handle.
Its cursor is config.start_block, mutated in place by next(). -/
structure BlockFetcher where
  client : Client
  config : SubscriptionConfig
  interval : Nat

/-- BlockFetcher::new (src/eth/src/subscription.rs:103-109). -/
def BlockFetcher.new (client : Client) (config : SubscriptionConfig)
    (interval : Nat) : BlockFetcher :=
  ⟨client, config, interval⟩

/-- BlockFetcher::next (src/eth/src/subscription.rs:116-133).  The mutation
of self is made explicit: the call happens at logical time t (the response
oracle's index) and returns the Rust result together with the updated
handle.  On the early return via the question mark operator the handle is
returned unchanged. -/
def BlockFetcher.next (f : BlockFetcher) (t : Nat) :
    Except Error (Option OrderedBlock) × BlockFetcher :=
  if f.config.start_block ≥ f.config.end_block then
    (.error .EndOfSubscription, f)
  else
    match f.client.get_block t f.config.start_block with
    | .error e => (.error e, f)
    | .ok block =>
      (.ok (some block),
       { f with config := { f.config with
           start_block := f.config.start_block + f.interval } })

/-- Iterated BlockFetcher::next: n successive calls starting at logical time
t, each call advancing the time by one; returns the list of call results in
order and the final handle state. -/
def BlockFetcher.run (f : BlockFetcher) (t : Nat) :
    Nat → List (Except Error (Option OrderedBlock)) × BlockFetcher
  | 0 => ([], f)
  | n + 1 =>
    let step := f.next t
    let rest := step.2.run (t + 1) n
    (step.1 :: rest.1, rest.2)

/-- NewBlockSubscription::next (src/eth/src/subscription.rs:44-52), as a
function of what receiver.recv() returned: a received block becomes
Ok(Some(block)); a closed, drained channel (recv = None) becomes Ok(None). -/
def NewBlockSubscription.next_result (recv : Option OrderedBlock) :
    Except Error (Option OrderedBlock) :=
  match recv with
  | some block => .ok (some block)
  | none => .ok none

/-- The consumer side of the live follower once the background task has
stopped: the channel holds the blocks sent before termination, and tokio's
recv yields each buffered block in order and then None forever.  This lists
the next() results of draining the channel and then observing closure. -/
def NewBlockSubscription.drain : List OrderedBlock →
    List (Except Error (Option OrderedBlock))
  | [] => [NewBlockSubscription.next_result none]
  | b :: rest => NewBlockSubscription.next_result (some b) ::
      NewBlockSubscription.drain rest

/-- Rust's remainder on u64: panics when the divisor is zero. -/
def u64_rem (a b : Nat) : Option Nat :=
  if b = 0 then none else some (a % b)

/-- Terminal outcome of the live follower's background task: it either
returned with an Error (stream end gives EndOfSubscription, a failed fetch
gives that fetch's error) or panicked (remainder by zero). -/
inductive TaskOutcome where
  | finished (e : Error)
  | panicked
deriving DecidableEq

/-- Body of the background task spawned by subscribe_latest_heads
(src/eth/src/subscription.rs:70-89), run over a finite list of incoming
head-notification block numbers (the stream ends after the list).  Each
processed notification advances the logical time by one; a fetch for
notification h uses the current time.  Returns the heights for which a
fetch was performed, the blocks sent to the channel (sends succeed while
the consumer holds the receiver), and the task's terminal outcome. -/
def subscribe_loop (c : Client) (interval : Nat) :
    Nat → List Nat → List Nat × List OrderedBlock × TaskOutcome
  | _, [] => ([], [], .finished .EndOfSubscription)
  | t, block_number :: rest =>
    match u64_rem block_number interval with
    | none => ([], [], .panicked)
    | some r =>
      if r ≠ 0 then
        subscribe_loop c interval (t + 1) rest
      else
        match c.get_block t block_number with
        | .error e => ([block_number], [], .finished e)
        | .ok block =>
          let out := subscribe_loop c interval (t + 1) rest
          (block_number :: out.1, block :: out.2.1, out.2.2)

/-- The handle returned by open_subscription: either a range fetcher or a
live-follower handle (channel receiver plus task handle); for the live case
the handle records the client and interval the spawned task closed over. -/
inductive SubscriptionHandle where
  | fetcher (f : BlockFetcher)
  | live (c : Client) (interval : Nat)

/-- subscribe_latest_heads (src/eth/src/subscription.rs:57-93): spawns the
background task and returns the handle; the function itself always
returns Ok. -/
def subscribe_latest_heads (client : Client) (interval : Nat) :
    Except Error SubscriptionHandle :=
  .ok (.live client interval)

/-- Client::open_subscription (src/eth/src/subscription.rs:153-164): a range
config selects the BlockFetcher, its absence the live follower. -/
def Client.open_subscription (c : Client) (config : Option SubscriptionConfig)
    (interval : Nat) : Except Error SubscriptionHandle :=
  match config with
  | some config => .ok (.fetcher (BlockFetcher.new c config interval))
  | none => subscribe_latest_heads c interval

/-! Helper lemmas about the key order and the pairing construction. -/

theorem optLe_trans : ∀ a b c, optLe a b = true → optLe b c = true →
    optLe a c = true
  | none, _, _, _, _ => rfl
  | some _, none, _, h, _ => by simp [optLe] at h
  | some _, some _, none, _, h => by simp [optLe] at h
  | some a, some b, some c, h₁, h₂ => by
    simp only [optLe, decide_eq_true_eq] at h₁ h₂ ⊢
    exact Nat.le_trans h₁ h₂

theorem optLe_total : ∀ a b, (optLe a b || optLe b a) = true
  | none, _ => by simp [optLe]
  | some _, none => by simp [optLe]
  | some a, some b => by
    simp only [optLe, Bool.or_eq_true, decide_eq_true_eq]
    exact Nat.le_total a b

theorem optLe_antisymm : ∀ a b, optLe a b = true → optLe b a = true → a = b
  | none, none, _, _ => rfl
  | none, some _, _, h => by simp [optLe] at h
  | some _, none, h, _ => by simp [optLe] at h
  | some a, some b, h₁, h₂ => by
    simp only [optLe, decide_eq_true_eq] at h₁ h₂
    exact congrArg some (Nat.le_antisymm h₁ h₂)

theorem optLt_of_le_of_ne : ∀ a b, optLe a b = true → a ≠ b → optLt a b = true
  | none, none, _, hne => absurd rfl hne
  | none, some _, _, _ => rfl
  | some _, none, h, _ => by simp [optLe] at h
  | some a, some b, h, hne => by
    simp only [optLe, decide_eq_true_eq] at h
    simp only [optLt, decide_eq_true_eq]
    exact Nat.lt_of_le_of_ne h (fun hab => hne (by rw [hab]))

theorem collectExcept_map_ok {α β ε : Type} (g : α → β) :
    ∀ l : List α,
      collectExcept (l.map fun a => (Except.ok (g a) : Except ε β)) =
        .ok (l.map g)
  | [] => rfl
  | a :: l => by
    simp only [List.map_cons, collectExcept, collectExcept_map_ok g l]
    rfl

/-- OrderedBlock::try_create always succeeds and its result is the
enumerated zip of the two key-sorted lists. -/
theorem try_create_eq (chain_id number hash : Nat)
    (txs : List Transaction) (rxs : List TransactionReceipt) :
    OrderedBlock.try_create chain_id number hash txs rxs =
      .ok { chain_id := chain_id, number := number, hash := hash,
            items :=
              (((txs.mergeSort
                  (fun a b => optLe a.transaction_index b.transaction_index)).zip
                (rxs.mergeSort
                  (fun a b => optLe a.transaction_index b.transaction_index))).enum.map
                fun p =>
                  ⟨BlockItemIdentifier.new number p.1, p.2.1, p.2.2⟩) } := by
  have h := collectExcept_map_ok
    (ε := ConversionError)
    (fun p : Nat × Transaction × TransactionReceipt =>
      (⟨BlockItemIdentifier.new number p.1, p.2.1, p.2.2⟩ : TxRx))
    (((txs.mergeSort
        (fun a b => optLe a.transaction_index b.transaction_index)).zip
      (rxs.mergeSort
        (fun a b => optLe a.transaction_index b.transaction_index))).enum)
  simp only [OrderedBlock.try_create, TxRx.try_create]
  rw [h]
  rfl

/-- C1: for every block with N transactions and N receipts,
OrderedBlock::try_create succeeds, the resulting OrderedBlock has exactly
N pairs, and the i-th pair's sequence index (the index component of its
BlockItemIdentifier) equals i for every i below N — within one block the
sequence indices are unique, dense and contiguous from 0. -/
theorem C1_try_create_dense_indices (chain_id number hash : Nat)
    (txs : List Transaction) (rxs : List TransactionReceipt)
    (hlen : txs.length = rxs.length) :
    ∃ b : OrderedBlock,
      OrderedBlock.try_create chain_id number hash txs rxs = .ok b ∧
      b.items.length = txs.length ∧
      ∀ i, (hi : i < b.items.length) → (b.items[i]).id.index = i := by
  refine ⟨_, try_create_eq chain_id number hash txs rxs, ?_, ?_⟩
  · simp only [List.length_map, List.enum_length, List.length_zip,
      ((txs.mergeSort _).mergeSort_perm _).length_eq]
    rw [(List.mergeSort_perm txs _).length_eq,
      (List.mergeSort_perm rxs _).length_eq, hlen, Nat.min_self]
  · intro i hi
    simp only [List.length_map, List.enum_length] at hi
    simp only [List.getElem_map, List.getElem_enum]
    rfl

/-- Witness for C1 at a concrete two-element block. -/
theorem C1_try_create_dense_indices_witness :
    ∃ b : OrderedBlock,
      OrderedBlock.try_create 1 7 9
        [⟨some 1, 100⟩, ⟨some 0, 200⟩] [⟨some 0, 300⟩, ⟨some 1, 400⟩] =
        .ok b ∧
      b.items.length =
        ([⟨some 1, 100⟩, ⟨some 0, 200⟩] : List Transaction).length ∧
      ∀ i, (hi : i < b.items.length) → (b.items[i]).id.index = i :=
  C1_try_create_dense_indices 1 7 9
    [⟨some 1, 100⟩, ⟨some 0, 200⟩] [⟨some 0, 300⟩, ⟨some 1, 400⟩] rfl

/-- Whenever Client::get_block succeeds, the two fetches succeeded, the
entry counts agreed, and the produced block carries the requested number,
the client's chain id, the fetched header hash, and the enumerated zip of
the sorted materialized transactions and receipts. -/
theorem get_block_ok_inv (c : Client) (t n : Nat) (b : OrderedBlock)
    (h : c.get_block t n = .ok b) :
    ∃ block receipts,
      c.get_eth_block t n = .ok block ∧
      c.get_receipts t n = .ok receipts ∧
      block.transactions.len = receipts.length ∧
      OrderedBlock.try_create c.chain_id n block.header.hash
        block.transactions.into_transactions receipts = .ok b := by
  cases hb : c.get_eth_block t n with
  | error e => simp [Client.get_block, hb] at h
  | ok block =>
    cases hr : c.get_receipts t n with
    | error e => simp [Client.get_block, hb, hr] at h
    | ok receipts =>
      by_cases hlen : block.transactions.len = receipts.length
      · refine ⟨block, receipts, rfl, rfl, hlen, ?_⟩
        simp only [Client.get_block, hb, hr] at h
        rw [if_neg (fun hc => hc hlen)] at h
        rw [try_create_eq] at h ⊢
        simpa [Except.mapError] using h
      · simp only [Client.get_block, hb, hr] at h
        rw [if_pos hlen] at h
        exact absurd h (by simp)

/-- Every successful Client::get_block result carries the requested block
number and the client's chain id. -/
theorem get_block_ok_number (c : Client) (t n : Nat) (b : OrderedBlock)
    (h : c.get_block t n = .ok b) : b.number = n ∧ b.chain_id = c.chain_id := by
  obtain ⟨block, receipts, _, _, _, hcr⟩ := get_block_ok_inv c t n b h
  rw [try_create_eq] at hcr
  cases hcr
  exact ⟨rfl, rfl⟩

/-- C2: when both fetches succeed but the fetched block's transaction entry
count differs from the fetched receipt count, Client::get_block fails with
TransactionsReceiptsMismatch for that block number, so no OrderedBlock is
produced for such inputs — construction fails instead of truncating or
padding. -/
theorem C2_mismatch_fails (c : Client) (t n : Nat) (block : Block)
    (receipts : List TransactionReceipt)
    (hb : c.get_eth_block t n = .ok block)
    (hr : c.get_receipts t n = .ok receipts)
    (hne : block.transactions.len ≠ receipts.length) :
    c.get_block t n = .error (.TransactionsReceiptsMismatch n) := by
  simp only [Client.get_block, hb, hr]
  rw [if_pos hne]

/-- Witness for C2: one transaction against an empty receipt list. -/
theorem C2_mismatch_fails_witness :
    (Client.mk 77
      { block_resp := fun _ _ => some (some ⟨⟨5⟩, .Full [⟨some 0, 100⟩]⟩),
        receipts_resp := fun _ _ => some (some []) }).get_block 0 3 =
      .error (.TransactionsReceiptsMismatch 3) :=
  C2_mismatch_fails
    (Client.mk 77
      { block_resp := fun _ _ => some (some ⟨⟨5⟩, .Full [⟨some 0, 100⟩]⟩),
        receipts_resp := fun _ _ => some (some []) })
    0 3 ⟨⟨5⟩, .Full [⟨some 0, 100⟩]⟩ [] rfl rfl (by decide)

/-- Client::get_block can never return the NotFullTransactionsFetched error:
that variant is declared in the Error enum but constructed nowhere. -/
theorem get_eth_block_error_shape (c : Client) (t n : Nat) (e : Error)
    (h : c.get_eth_block t n = .error e) : e = .FailedToGetBlock n := by
  unfold Client.get_eth_block at h
  cases hblk : c.http.block_resp t n with
  | none => rw [hblk] at h; injection h with h2; exact h2.symm
  | some ob =>
    cases ob with
    | none => rw [hblk] at h; injection h with h2; exact h2.symm
    | some blk => rw [hblk] at h; exact absurd h (by simp)

theorem get_receipts_error_shape (c : Client) (t n : Nat) (e : Error)
    (h : c.get_receipts t n = .error e) :
    e = .FailedToGetReceipts n ∨ e = .FailedToGetBlock n := by
  unfold Client.get_receipts at h
  cases hrx : c.http.receipts_resp t n with
  | none => rw [hrx] at h; injection h with h2; exact Or.inl h2.symm
  | some orx =>
    cases orx with
    | none => rw [hrx] at h; injection h with h2; exact Or.inr h2.symm
    | some rxs => rw [hrx] at h; exact absurd h (by simp)

theorem get_block_never_not_full (c : Client) (t n m : Nat) :
    c.get_block t n ≠ .error (.NotFullTransactionsFetched m) := by
  intro h
  cases hb : c.get_eth_block t n with
  | error e =>
    simp only [Client.get_block, hb] at h
    injection h with h2
    rw [get_eth_block_error_shape c t n e hb] at h2
    exact absurd h2 (by simp)
  | ok block =>
    cases hr : c.get_receipts t n with
    | error e =>
      simp only [Client.get_block, hb, hr] at h
      injection h with h2
      rcases get_receipts_error_shape c t n e hr with h3 | h3 <;>
        rw [h3] at h2 <;> exact absurd h2 (by simp)
    | ok receipts =>
      by_cases hlen : block.transactions.len = receipts.length
      · simp only [Client.get_block, hb, hr] at h
        rw [if_neg (fun hc => hc hlen), try_create_eq] at h
        exact absurd h (by simp [Except.mapError])
      · simp only [Client.get_block, hb, hr] at h
        rw [if_pos hlen] at h
        injection h with h2
        exact absurd h2 (by simp)

/-- C3: counter-evidence for the claim.  A fetched block response carrying
only transaction hashes (two hashes) together with two receipts makes
Client::get_block return Ok with an OrderedBlock of zero pairs — it does
not fail with NotFullTransactionsFetched (that error variant is never
constructed anywhere in the crate), contradicting both the claim and the
OrderedBlock pair-count invariant. -/
theorem get_block_eq_ok (c : Client) (t n : Nat) (block : Block)
    (receipts : List TransactionReceipt)
    (hb : c.get_eth_block t n = .ok block)
    (hr : c.get_receipts t n = .ok receipts)
    (hlen : block.transactions.len = receipts.length) :
    c.get_block t n =
      .ok { chain_id := c.chain_id, number := n, hash := block.header.hash,
            items :=
              (((block.transactions.into_transactions.mergeSort
                  (fun a b => optLe a.transaction_index b.transaction_index)).zip
                (receipts.mergeSort
                  (fun a b => optLe a.transaction_index b.transaction_index))).enum.map
                fun p =>
                  ⟨BlockItemIdentifier.new n p.1, p.2.1, p.2.2⟩) } := by
  simp only [Client.get_block, hb, hr]
  rw [if_neg (fun hc => hc hlen), try_create_eq]
  rfl

/-- C3: counter-evidence for the claim.  A fetched block response carrying
only transaction hashes (two hashes) together with two receipts makes
Client::get_block return Ok with an OrderedBlock of zero pairs — it does
not fail with NotFullTransactionsFetched (that error variant is never
constructed anywhere in the crate), contradicting both the claim and the
OrderedBlock pair-count invariant. -/
theorem C3_hashes_only_block_succeeds :
    (Client.mk 77
      { block_resp := fun _ _ => some (some ⟨⟨5⟩, .Hashes [11, 22]⟩),
        receipts_resp := fun _ _ =>
          some (some [⟨some 0, 300⟩, ⟨some 1, 400⟩]) }).get_block 0 5 =
      .ok { chain_id := 77, number := 5, hash := 5, items := [] } := by
  rw [get_block_eq_ok
    (Client.mk 77
      { block_resp := fun _ _ => some (some ⟨⟨5⟩, .Hashes [11, 22]⟩),
        receipts_resp := fun _ _ =>
          some (some [⟨some 0, 300⟩, ⟨some 1, 400⟩]) })
    0 5 ⟨⟨5⟩, .Hashes [11, 22]⟩
    [⟨some 0, 300⟩, ⟨some 1, 400⟩] rfl rfl rfl]
  simp [BlockTransactions.into_transactions]

/-! BlockFetcher step lemmas. -/

/-- A next() call past the end of the range returns EndOfSubscription and
leaves the handle untouched. -/
theorem next_end (f : BlockFetcher) (t : Nat)
    (hge : f.config.start_block ≥ f.config.end_block) :
    f.next t = (.error .EndOfSubscription, f) := by
  unfold BlockFetcher.next
  rw [if_pos hge]

/-- A next() call inside the range whose fetch succeeds returns the block
and advances the cursor by the interval. -/
theorem next_ok (f : BlockFetcher) (t : Nat) (b : OrderedBlock)
    (hlt : f.config.start_block < f.config.end_block)
    (hget : f.client.get_block t f.config.start_block = .ok b) :
    f.next t = (.ok (some b),
      ⟨f.client, ⟨f.config.start_block + f.interval, f.config.end_block⟩,
        f.interval⟩) := by
  unfold BlockFetcher.next
  rw [if_neg (Nat.not_le.mpr hlt), hget]

/-- A next() call inside the range whose fetch fails returns that error and
leaves the handle untouched (the early return of the question mark). -/
theorem next_error (f : BlockFetcher) (t : Nat) (e : Error)
    (hlt : f.config.start_block < f.config.end_block)
    (hget : f.client.get_block t f.config.start_block = .error e) :
    f.next t = (.error e, f) := by
  unfold BlockFetcher.next
  rw [if_neg (Nat.not_le.mpr hlt), hget]

theorem run_succ (f : BlockFetcher) (t m : Nat) :
    f.run t (m + 1) =
      ((f.next t).1 :: ((f.next t).2.run (t + 1) m).1,
        ((f.next t).2.run (t + 1) m).2) := rfl

/-- Once the cursor has reached the end of the range, every further call
returns EndOfSubscription and the handle never changes: the terminal
condition is re-derived from the cursor on each call. -/
theorem run_end : ∀ (m : Nat) (f : BlockFetcher) (t : Nat),
    f.config.start_block ≥ f.config.end_block →
    f.run t m = (List.replicate m (.error .EndOfSubscription), f)
  | 0, _, _, _ => rfl
  | m + 1, f, t, hge => by
    rw [run_succ, next_end f t hge]
    rw [run_end m f (t + 1) hge]
    rfl

/-- C5: a range fetcher over start=10, end=10+3k with interval k (k at
least 1), against a client whose fetches all succeed, yields exactly three
successful blocks at heights 10, 10+k, 10+2k in that order, then
EndOfSubscription on the fourth call and on every call thereafter. -/
theorem C5_range_fetcher_three_blocks (c : Client) (k t n : Nat)
    (hk : 1 ≤ k)
    (hsucc : ∀ u m, ∃ b, c.get_block u m = .ok b) :
    ∃ b₀ b₁ b₂ : OrderedBlock,
      ((BlockFetcher.new c ⟨10, 10 + 3 * k⟩ k).run t (n + 4)).1 =
        .ok (some b₀) :: .ok (some b₁) :: .ok (some b₂) ::
          List.replicate (n + 1) (.error .EndOfSubscription) ∧
      b₀.number = 10 ∧ b₁.number = 10 + k ∧ b₂.number = 10 + 2 * k := by
  obtain ⟨b₀, h₀⟩ := hsucc t 10
  obtain ⟨b₁, h₁⟩ := hsucc (t + 1) (10 + k)
  obtain ⟨b₂, h₂⟩ := hsucc (t + 2) (10 + k + k)
  have r₁ : (⟨c, ⟨10 + 3 * k, 10 + 3 * k⟩, k⟩ : BlockFetcher).run (t + 3)
      (n + 1) =
      (List.replicate (n + 1) (.error .EndOfSubscription),
        ⟨c, ⟨10 + 3 * k, 10 + 3 * k⟩, k⟩) :=
    run_end (n + 1) _ _ (Nat.le_refl _)
  have e₂ : (⟨c, ⟨10 + k + k, 10 + 3 * k⟩, k⟩ : BlockFetcher).next (t + 2) =
      (.ok (some b₂), ⟨c, ⟨10 + k + k + k, 10 + 3 * k⟩, k⟩) :=
    next_ok _ _ _ (show 10 + k + k < 10 + 3 * k by omega) h₂
  have r₂ : (⟨c, ⟨10 + k + k, 10 + 3 * k⟩, k⟩ : BlockFetcher).run (t + 2)
      ((n + 1) + 1) =
      (.ok (some b₂) :: List.replicate (n + 1) (.error .EndOfSubscription),
        ⟨c, ⟨10 + 3 * k, 10 + 3 * k⟩, k⟩) := by
    rw [run_succ]
    simp only [e₂]
    rw [show 10 + k + k + k = 10 + 3 * k from by ring]
    rw [r₁]
  have e₁ : (⟨c, ⟨10 + k, 10 + 3 * k⟩, k⟩ : BlockFetcher).next (t + 1) =
      (.ok (some b₁), ⟨c, ⟨10 + k + k, 10 + 3 * k⟩, k⟩) :=
    next_ok _ _ _ (show 10 + k < 10 + 3 * k by omega) h₁
  have r₃ : (⟨c, ⟨10 + k, 10 + 3 * k⟩, k⟩ : BlockFetcher).run (t + 1)
      (((n + 1) + 1) + 1) =
      (.ok (some b₁) :: .ok (some b₂) ::
          List.replicate (n + 1) (.error .EndOfSubscription),
        ⟨c, ⟨10 + 3 * k, 10 + 3 * k⟩, k⟩) := by
    rw [run_succ]
    simp only [e₁]
    rw [r₂]
  have e₀ : (BlockFetcher.new c ⟨10, 10 + 3 * k⟩ k).next t =
      (.ok (some b₀), ⟨c, ⟨10 + k, 10 + 3 * k⟩, k⟩) :=
    next_ok _ _ _ (show 10 < 10 + 3 * k by omega) h₀
  have r₄ : (BlockFetcher.new c ⟨10, 10 + 3 * k⟩ k).run t
      ((((n + 1) + 1) + 1) + 1) =
      (.ok (some b₀) :: .ok (some b₁) :: .ok (some b₂) ::
          List.replicate (n + 1) (.error .EndOfSubscription),
        ⟨c, ⟨10 + 3 * k, 10 + 3 * k⟩, k⟩) := by
    rw [run_succ]
    simp only [e₀]
    rw [r₃]
  refine ⟨b₀, b₁, b₂, ?_, (get_block_ok_number _ _ _ _ h₀).1,
    (get_block_ok_number _ _ _ _ h₁).1, ?_⟩
  · rw [show n + 4 = (((n + 1) + 1) + 1) + 1 from rfl, r₄]
  · rw [(get_block_ok_number _ _ _ _ h₂).1]; ring

/-- Witness for C5 with interval 1 against a client that always returns a
one-transaction block. -/
theorem C5_range_fetcher_three_blocks_witness :
    ∃ b₀ b₁ b₂ : OrderedBlock,
      ((BlockFetcher.new
        (Client.mk 77
          { block_resp := fun _ _ => some (some ⟨⟨5⟩, .Full [⟨some 0, 100⟩]⟩),
            receipts_resp := fun _ _ => some (some [⟨some 0, 300⟩]) })
        ⟨10, 10 + 3 * 1⟩ 1).run 0 (0 + 4)).1 =
        .ok (some b₀) :: .ok (some b₁) :: .ok (some b₂) ::
          List.replicate (0 + 1) (.error .EndOfSubscription) ∧
      b₀.number = 10 ∧ b₁.number = 10 + 1 ∧ b₂.number = 10 + 2 * 1 :=
  C5_range_fetcher_three_blocks
    (Client.mk 77
      { block_resp := fun _ _ => some (some ⟨⟨5⟩, .Full [⟨some 0, 100⟩]⟩),
        receipts_resp := fun _ _ => some (some [⟨some 0, 300⟩]) })
    1 0 0 (Nat.le_refl 1)
    (fun u m => ⟨_, get_block_eq_ok _ u m ⟨⟨5⟩, .Full [⟨some 0, 100⟩]⟩
      [⟨some 0, 300⟩] rfl rfl rfl⟩)

/-- C10: BlockFetcher::next is atomic on failure — when the fetch for the
cursor block fails, the call returns that error and the handle state
(cursor, end, interval, client) is unchanged, so the next call fetches the
same block number again; and in general the state either stays unchanged
or the call returned a successful block and the cursor advanced by the
interval. -/
theorem C10_next_atomic_on_failure (f : BlockFetcher) (t : Nat) (e : Error)
    (hlt : f.config.start_block < f.config.end_block)
    (hget : f.client.get_block t f.config.start_block = .error e) :
    f.next t = (.error e, f) ∧
    ∀ u r f2, f.next u = (r, f2) → f2 ≠ f →
      ∃ b, r = .ok (some b) ∧
        f2 = ⟨f.client, ⟨f.config.start_block + f.interval,
          f.config.end_block⟩, f.interval⟩ := by
  refine ⟨next_error f t e hlt hget, ?_⟩
  intro u r f2 hnext hne
  by_cases hend : f.config.start_block ≥ f.config.end_block
  · rw [next_end f u hend] at hnext
    cases hnext
    exact absurd rfl hne
  · cases hu : f.client.get_block u f.config.start_block with
    | error e2 =>
      rw [next_error f u e2 (Nat.not_le.mp hend) hu] at hnext
      cases hnext
      exact absurd rfl hne
    | ok b =>
      rw [next_ok f u b (Nat.not_le.mp hend) hu] at hnext
      cases hnext
      exact ⟨b, rfl, rfl⟩

/-- Witness for C10 against a client whose block fetch always fails. -/
theorem C10_next_atomic_on_failure_witness :
    (BlockFetcher.new
      (Client.mk 77
        { block_resp := fun _ _ => none,
          receipts_resp := fun _ _ => some (some []) })
      ⟨10, 20⟩ 1).next 0 =
      (.error (.FailedToGetBlock 10),
        BlockFetcher.new
          (Client.mk 77
            { block_resp := fun _ _ => none,
              receipts_resp := fun _ _ => some (some []) })
          ⟨10, 20⟩ 1) ∧
    ∀ u r f2,
      (BlockFetcher.new
        (Client.mk 77
          { block_resp := fun _ _ => none,
            receipts_resp := fun _ _ => some (some []) })
        ⟨10, 20⟩ 1).next u = (r, f2) →
      f2 ≠ BlockFetcher.new
        (Client.mk 77
          { block_resp := fun _ _ => none,
            receipts_resp := fun _ _ => some (some []) })
        ⟨10, 20⟩ 1 →
      ∃ b, r = .ok (some b) ∧ f2 = ⟨(Client.mk 77
        { block_resp := fun _ _ => none,
          receipts_resp := fun _ _ => some (some []) }), ⟨10 + 1, 20⟩, 1⟩ :=
  C10_next_atomic_on_failure _ 0 (.FailedToGetBlock 10)
    (show (10 : Nat) < 20 by decide) rfl

/-- C6: counterexample.  A range fetcher whose client's block fetch fails on
the first call and succeeds on the second returns a failure from the first
next() and a successful OrderedBlock from the second next() — a failure
result is not terminal for the Range Fetcher, so a terminal outcome does
not persist for every subscription handle as claimed. -/
theorem C6_counterexample :
    ((BlockFetcher.new
      (Client.mk 77
        { block_resp := fun u _ =>
            if u = 0 then none else some (some ⟨⟨5⟩, .Full [⟨some 0, 100⟩]⟩),
          receipts_resp := fun _ _ => some (some [⟨some 0, 300⟩]) })
      ⟨10, 20⟩ 1).next 0).1 = .error (.FailedToGetBlock 10) ∧
    (((BlockFetcher.new
      (Client.mk 77
        { block_resp := fun u _ =>
            if u = 0 then none else some (some ⟨⟨5⟩, .Full [⟨some 0, 100⟩]⟩),
          receipts_resp := fun _ _ => some (some [⟨some 0, 300⟩]) })
      ⟨10, 20⟩ 1).next 0).2.next 1).1 =
      .ok (some ⟨77, 10, 5,
        [⟨⟨10, 0⟩, ⟨some 0, 100⟩, ⟨some 0, 300⟩⟩]⟩) := by
  have h1 : (BlockFetcher.new
      (Client.mk 77
        { block_resp := fun u _ =>
            if u = 0 then none else some (some ⟨⟨5⟩, .Full [⟨some 0, 100⟩]⟩),
          receipts_resp := fun _ _ => some (some [⟨some 0, 300⟩]) })
      ⟨10, 20⟩ 1).next 0 =
      (.error (.FailedToGetBlock 10),
        BlockFetcher.new
          (Client.mk 77
            { block_resp := fun u _ =>
                if u = 0 then none
                else some (some ⟨⟨5⟩, .Full [⟨some 0, 100⟩]⟩),
              receipts_resp := fun _ _ => some (some [⟨some 0, 300⟩]) })
          ⟨10, 20⟩ 1) :=
    next_error _ 0 _ (show (10 : Nat) < 20 by decide) rfl
  have h2 : (Client.mk 77
      { block_resp := fun u _ =>
          if u = 0 then none else some (some ⟨⟨5⟩, .Full [⟨some 0, 100⟩]⟩),
        receipts_resp := fun _ _ =>
          some (some [⟨some 0, 300⟩]) }).get_block 1 10 =
      .ok ⟨77, 10, 5, [⟨⟨10, 0⟩, ⟨some 0, 100⟩, ⟨some 0, 300⟩⟩]⟩ := by
    rw [get_block_eq_ok
      (Client.mk 77
        { block_resp := fun u _ =>
            if u = 0 then none else some (some ⟨⟨5⟩, .Full [⟨some 0, 100⟩]⟩),
          receipts_resp := fun _ _ => some (some [⟨some 0, 300⟩]) })
      1 10 ⟨⟨5⟩, .Full [⟨some 0, 100⟩]⟩ [⟨some 0, 300⟩]
      rfl rfl rfl]
    simp [BlockTransactions.into_transactions, BlockItemIdentifier.new]
  constructor
  · rw [h1]
  · rw [h1]
    rw [next_ok _ 1 _ (show (10 : Nat) < 20 by decide) h2]

/-- C6, amended: once a next() call has returned end-of-source the source
stays terminal — the Range Fetcher re-derives cursor >= end on every later
call and returns EndOfSubscription forever with unchanged state, and the
Live Follower's consumer keeps observing end-of-source from a closed,
drained channel — but a failure result is not terminal for the Range
Fetcher: its state is unchanged, the same block is re-fetched, and a later
call may succeed (see the counterexample). -/
theorem C6_amended_end_of_source_terminal (f : BlockFetcher) (t m : Nat)
    (hge : f.config.start_block ≥ f.config.end_block) :
    f.run t m = (List.replicate m (.error .EndOfSubscription), f) ∧
    NewBlockSubscription.next_result none = .ok none :=
  ⟨run_end m f t hge, rfl⟩

/-- Witness for the amended C6 at an already-exhausted range. -/
theorem C6_amended_end_of_source_terminal_witness :
    (BlockFetcher.new
      (Client.mk 77
        { block_resp := fun _ _ => none,
          receipts_resp := fun _ _ => none })
      ⟨5, 5⟩ 1).run 0 2 =
      (List.replicate 2 (.error .EndOfSubscription),
        BlockFetcher.new
          (Client.mk 77
            { block_resp := fun _ _ => none,
              receipts_resp := fun _ _ => none })
          ⟨5, 5⟩ 1) ∧
    NewBlockSubscription.next_result none = .ok none :=
  C6_amended_end_of_source_terminal _ 0 2 (Nat.le_refl 5)

/-- C7: in the live follower's background task, with any interval of at
least 1 and any sequence of head notifications, a block fetch is performed
only for notified heights that are exact multiples of the interval, and
every block sent to the channel has such a height — a notification whose
height is not a multiple triggers no fetch and produces no channel item. -/
theorem C7_interval_filter (c : Client) (interval : Nat) (hi : 1 ≤ interval) :
    ∀ (hs : List Nat) (t : Nat),
      (∀ h ∈ (subscribe_loop c interval t hs).1, h % interval = 0) ∧
      (∀ b ∈ (subscribe_loop c interval t hs).2.1,
        b.number % interval = 0) := by
  intro hs
  induction hs with
  | nil =>
    intro t
    simp [subscribe_loop]
  | cons h rest ih =>
    intro t
    have hrem : u64_rem h interval = some (h % interval) := by
      unfold u64_rem
      rw [if_neg (by omega)]
    by_cases hz : h % interval = 0
    · have hloop : subscribe_loop c interval t (h :: rest) =
          match c.get_block t h with
          | .error e => ([h], [], .finished e)
          | .ok block =>
            let out := subscribe_loop c interval (t + 1) rest
            (h :: out.1, block :: out.2.1, out.2.2) := by
        simp only [subscribe_loop, hrem]
        rw [if_neg (fun hc => hc hz)]
      cases hget : c.get_block t h with
      | error e =>
        rw [hget] at hloop
        rw [hloop]
        exact ⟨fun x hx => by simp at hx; rw [hx]; exact hz,
          fun b hb => by simp at hb⟩
      | ok block =>
        rw [hget] at hloop
        rw [hloop]
        constructor
        · intro x hx
          rcases List.mem_cons.mp hx with h1 | h1
          · rw [h1]; exact hz
          · exact (ih (t + 1)).1 x h1
        · intro b hb
          rcases List.mem_cons.mp hb with h1 | h1
          · rw [h1, (get_block_ok_number c t h block hget).1]; exact hz
          · exact (ih (t + 1)).2 b h1
    · have hloop : subscribe_loop c interval t (h :: rest) =
          subscribe_loop c interval (t + 1) rest := by
        simp only [subscribe_loop, hrem]
        rw [if_pos hz]
      rw [hloop]
      exact ih (t + 1)

/-- Witness for C7: interval 5 over notifications 101..105. -/
theorem C7_interval_filter_witness :
    (∀ h ∈ (subscribe_loop
        (Client.mk 77
          { block_resp := fun _ _ => some (some ⟨⟨5⟩, .Full [⟨some 0, 100⟩]⟩),
            receipts_resp := fun _ _ => some (some [⟨some 0, 300⟩]) })
        5 0 [101, 102, 103, 104, 105]).1, h % 5 = 0) ∧
    (∀ b ∈ (subscribe_loop
        (Client.mk 77
          { block_resp := fun _ _ => some (some ⟨⟨5⟩, .Full [⟨some 0, 100⟩]⟩),
            receipts_resp := fun _ _ => some (some [⟨some 0, 300⟩]) })
        5 0 [101, 102, 103, 104, 105]).2.1, b.number % 5 = 0) :=
  C7_interval_filter
    (Client.mk 77
      { block_resp := fun _ _ => some (some ⟨⟨5⟩, .Full [⟨some 0, 100⟩]⟩),
        receipts_resp := fun _ _ => some (some [⟨some 0, 300⟩]) })
    5 (by decide) [101, 102, 103, 104, 105] 0

/-- C8: on the consumer side, next() turns every received channel value
into a successful OrderedBlock and a closed, drained channel into
end-of-source, and it never produces a failure — draining the channel left
by a terminated background task yields exactly the sent blocks as
successes followed by end-of-source, whatever the task's terminal outcome
was (an internal fetch failure is masked as end-of-source). -/
theorem C8_consumer_masks_failure (sent : List OrderedBlock) :
    NewBlockSubscription.drain sent =
      sent.map (fun b => .ok (some b)) ++ [.ok none] ∧
    (∀ r ∈ NewBlockSubscription.drain sent, ∀ e, r ≠ .error e) ∧
    ∀ v e, NewBlockSubscription.next_result v ≠ .error e := by
  have hmain : ∀ l : List OrderedBlock,
      NewBlockSubscription.drain l =
        l.map (fun b => (Except.ok (some b) : Except Error (Option OrderedBlock)))
          ++ [Except.ok none] := by
    intro l
    induction l with
    | nil => rfl
    | cons b rest ih =>
      simp only [NewBlockSubscription.drain, NewBlockSubscription.next_result,
        ih, List.map_cons, List.cons_append]
  have hnr : ∀ (v : Option OrderedBlock) (e : Error),
      NewBlockSubscription.next_result v ≠ .error e := by
    intro v e h
    cases v <;> simp [NewBlockSubscription.next_result] at h
  refine ⟨hmain sent, ?_, hnr⟩
  intro r hr e
  rw [hmain sent] at hr
  rcases List.mem_append.mp hr with h1 | h1
  · obtain ⟨b, _, rfl⟩ := List.mem_map.mp h1
    simp
  · simp at h1
    rw [h1]
    simp

/-- Witness for C8 draining a single-block channel. -/
theorem C8_consumer_masks_failure_witness :
    NewBlockSubscription.drain [⟨77, 10, 5, []⟩] =
      ([⟨77, 10, 5, []⟩] : List OrderedBlock).map (fun b => .ok (some b))
        ++ [.ok none] ∧
    (∀ r ∈ NewBlockSubscription.drain [⟨77, 10, 5, []⟩], ∀ e, r ≠ .error e) ∧
    ∀ v e, NewBlockSubscription.next_result v ≠ .error e :=
  C8_consumer_masks_failure [⟨77, 10, 5, []⟩]

/-- C9: interval = 0 is an unchecked precondition.  The live follower's
filter evaluates the remainder by zero (a Rust panic) on the first
notification; the range fetcher with interval 0 and a non-exhausted range
returns a block for the same height on every call with unchanged state and
never reaches end-of-source; and open_subscription accepts interval = 0 in
both modes. -/
theorem C9_interval_zero_unchecked (c : Client) (t h m : Nat)
    (rest : List Nat) (cfg : SubscriptionConfig)
    (config : Option SubscriptionConfig)
    (hlt : cfg.start_block < cfg.end_block)
    (hsucc : ∀ u x, ∃ b, c.get_block u x = .ok b) :
    subscribe_loop c 0 t (h :: rest) = ([], [], .panicked) ∧
    (∀ r ∈ ((BlockFetcher.new c cfg 0).run t m).1,
      ∃ b, r = .ok (some b) ∧ b.number = cfg.start_block) ∧
    ((BlockFetcher.new c cfg 0).run t m).2 = BlockFetcher.new c cfg 0 ∧
    ∃ s, c.open_subscription config 0 = .ok s := by
  refine ⟨rfl, ?_, ?_, ?_⟩
  · have key : ∀ (m t : Nat), ∀ r ∈ ((BlockFetcher.new c cfg 0).run t m).1,
        ∃ b, r = .ok (some b) ∧ b.number = cfg.start_block := by
      intro m
      induction m with
      | zero => intro t r hr; simp [BlockFetcher.run] at hr
      | succ m ih =>
        intro t r hr
        obtain ⟨b, hb⟩ := hsucc t cfg.start_block
        have e : (BlockFetcher.new c cfg 0).next t =
            (.ok (some b), BlockFetcher.new c cfg 0) :=
          next_ok (BlockFetcher.new c cfg 0) t b hlt hb
        rw [run_succ] at hr
        simp only [e] at hr
        rcases List.mem_cons.mp hr with h1 | h1
        · exact ⟨b, h1, (get_block_ok_number c t cfg.start_block b hb).1⟩
        · exact ih (t + 1) r h1
    exact key m t
  · have key : ∀ (m t : Nat),
        ((BlockFetcher.new c cfg 0).run t m).2 = BlockFetcher.new c cfg 0 := by
      intro m
      induction m with
      | zero => intro t; rfl
      | succ m ih =>
        intro t
        obtain ⟨b, hb⟩ := hsucc t cfg.start_block
        have e : (BlockFetcher.new c cfg 0).next t =
            (.ok (some b), BlockFetcher.new c cfg 0) :=
          next_ok (BlockFetcher.new c cfg 0) t b hlt hb
        rw [run_succ]
        simp only [e]
        exact ih (t + 1)
    exact key m t
  · cases config with
    | some cfg2 => exact ⟨_, rfl⟩
    | none => exact ⟨_, rfl⟩

/-- Witness for C9 at interval 0, a one-block range and a succeeding
client. -/
theorem C9_interval_zero_unchecked_witness :
    subscribe_loop
      (Client.mk 77
        { block_resp := fun _ _ => some (some ⟨⟨5⟩, .Full [⟨some 0, 100⟩]⟩),
          receipts_resp := fun _ _ => some (some [⟨some 0, 300⟩]) })
      0 0 [101] = ([], [], .panicked) ∧
    (∀ r ∈ ((BlockFetcher.new
        (Client.mk 77
          { block_resp := fun _ _ => some (some ⟨⟨5⟩, .Full [⟨some 0, 100⟩]⟩),
            receipts_resp := fun _ _ => some (some [⟨some 0, 300⟩]) })
        ⟨10, 20⟩ 0).run 0 3).1,
      ∃ b, r = .ok (some b) ∧
        b.number = (⟨10, 20⟩ : SubscriptionConfig).start_block) ∧
    ((BlockFetcher.new
        (Client.mk 77
          { block_resp := fun _ _ => some (some ⟨⟨5⟩, .Full [⟨some 0, 100⟩]⟩),
            receipts_resp := fun _ _ => some (some [⟨some 0, 300⟩]) })
        ⟨10, 20⟩ 0).run 0 3).2 =
      BlockFetcher.new
        (Client.mk 77
          { block_resp := fun _ _ => some (some ⟨⟨5⟩, .Full [⟨some 0, 100⟩]⟩),
            receipts_resp := fun _ _ => some (some [⟨some 0, 300⟩]) })
        ⟨10, 20⟩ 0 ∧
    ∃ s, (Client.mk 77
        { block_resp := fun _ _ => some (some ⟨⟨5⟩, .Full [⟨some 0, 100⟩]⟩),
          receipts_resp := fun _ _ =>
            some (some [⟨some 0, 300⟩]) }).open_subscription none 0 = .ok s :=
  C9_interval_zero_unchecked
    (Client.mk 77
      { block_resp := fun _ _ => some (some ⟨⟨5⟩, .Full [⟨some 0, 100⟩]⟩),
        receipts_resp := fun _ _ => some (some [⟨some 0, 300⟩]) })
    0 101 3 [] ⟨10, 20⟩ none (show (10 : Nat) < 20 by decide)
    (fun u m => ⟨_, get_block_eq_ok _ u m ⟨⟨5⟩, .Full [⟨some 0, 100⟩]⟩
      [⟨some 0, 300⟩] rfl rfl rfl⟩)

/-- Two sorted permutations of each other whose keys are pairwise distinct
are equal: sorting a list with distinct keys determines it uniquely. -/
theorem sorted_perm_eq {α : Type} (key : α → Option Nat) :
    ∀ (l₁ l₂ : List α), l₁.Perm l₂ →
      l₁.Pairwise (fun a b => optLe (key a) (key b) = true) →
      l₂.Pairwise (fun a b => optLe (key a) (key b) = true) →
      (l₁.map key).Nodup → l₁ = l₂ := by
  intro l₁
  induction l₁ with
  | nil =>
    intro l₂ hp _ _ _
    exact List.Perm.nil_eq hp
  | cons a t₁ ih =>
    intro l₂ hp hs₁ hs₂ hnd
    cases l₂ with
    | nil => exact absurd (List.Perm.eq_nil hp) (by simp)
    | cons b t₂ =>
      have hab : a = b := by
        by_contra hne
        have hmem_a : a ∈ b :: t₂ := hp.mem_iff.mp (List.mem_cons_self a t₁)
        have hmem_b : b ∈ a :: t₁ := hp.mem_iff.mpr (List.mem_cons_self b t₂)
        have ha2 : a ∈ t₂ := by
          rcases List.mem_cons.mp hmem_a with h | h
          · exact absurd h hne
          · exact h
        have hb1 : b ∈ t₁ := by
          rcases List.mem_cons.mp hmem_b with h | h
          · exact absurd h.symm hne
          · exact h
        have h₁ : optLe (key a) (key b) = true :=
          (List.pairwise_cons.mp hs₁).1 b hb1
        have h₂ : optLe (key b) (key a) = true :=
          (List.pairwise_cons.mp hs₂).1 a ha2
        have hk : key a = key b := optLe_antisymm _ _ h₁ h₂
        have hnotin : key a ∉ t₁.map key := by
          rw [List.map_cons] at hnd
          exact (List.nodup_cons.mp hnd).1
        exact hnotin (by rw [hk]; exact List.mem_map_of_mem key hb1)
      subst hab
      rw [ih t₂ hp.cons_inv (List.pairwise_cons.mp hs₁).2
        (List.pairwise_cons.mp hs₂).2
        (by rw [List.map_cons] at hnd; exact (List.nodup_cons.mp hnd).2)]

/-- Stable sorting by key is invariant under permutation of the input when
the keys are pairwise distinct. -/
theorem mergeSort_eq_of_perm {α : Type} (key : α → Option Nat)
    (l₁ l₂ : List α) (hperm : l₁.Perm l₂) (hnd : (l₁.map key).Nodup) :
    l₁.mergeSort (fun a b => optLe (key a) (key b)) =
      l₂.mergeSort (fun a b => optLe (key a) (key b)) := by
  apply sorted_perm_eq key
  · exact ((l₁.mergeSort_perm _).trans hperm).trans (l₂.mergeSort_perm _).symm
  · exact List.sorted_mergeSort
      (fun a b c hab hbc => optLe_trans (key a) (key b) (key c) hab hbc)
      (fun a b => optLe_total (key a) (key b)) l₁
  · exact List.sorted_mergeSort
      (fun a b c hab hbc => optLe_trans (key a) (key b) (key c) hab hbc)
      (fun a b => optLe_total (key a) (key b)) l₂
  · exact (((l₁.mergeSort_perm _).map key).nodup_iff).mpr hnd

/-- C4: pairing is index-based, not arrival-based.  When the transactions
carry pairwise distinct reported indices and so do the receipts, any
reordering of the transaction list and any reordering of the receipt list
(for example feeding both in reverse) produce the same OrderedBlock pair
sequence, and that sequence is strictly ascending in the transactions'
reported transaction index. -/
theorem C4_pairing_is_index_based (chain_id number hash : Nat)
    (txs₁ txs₂ : List Transaction) (rxs₁ rxs₂ : List TransactionReceipt)
    (hpt : txs₁.Perm txs₂) (hpr : rxs₁.Perm rxs₂)
    (hnt : (txs₁.map Transaction.transaction_index).Nodup)
    (hnr : (rxs₁.map TransactionReceipt.transaction_index).Nodup) :
    OrderedBlock.try_create chain_id number hash txs₁ rxs₁ =
      OrderedBlock.try_create chain_id number hash txs₂ rxs₂ ∧
    ∀ b, OrderedBlock.try_create chain_id number hash txs₁ rxs₁ = .ok b →
      b.items.Pairwise (fun x y =>
        optLt x.tx.transaction_index y.tx.transaction_index = true) := by
  constructor
  · rw [try_create_eq, try_create_eq,
      mergeSort_eq_of_perm Transaction.transaction_index txs₁ txs₂ hpt hnt,
      mergeSort_eq_of_perm TransactionReceipt.transaction_index rxs₁ rxs₂
        hpr hnr]
  · intro b hb
    rw [try_create_eq] at hb
    injection hb with hb2
    subst hb2
    simp only []
    apply List.pairwise_iff_getElem.mpr
    intro i j hi hj hij
    have hsorted : (txs₁.mergeSort
        (fun a b => optLe a.transaction_index b.transaction_index)).Pairwise
        (fun a b => optLe a.transaction_index b.transaction_index = true) :=
      List.sorted_mergeSort
        (fun a b c hab hbc => optLe_trans a.transaction_index
          b.transaction_index c.transaction_index hab hbc)
        (fun a b => optLe_total a.transaction_index b.transaction_index) txs₁
    have hndS : ((txs₁.mergeSort
        (fun a b => optLe a.transaction_index b.transaction_index)).map
        Transaction.transaction_index).Nodup :=
      (((txs₁.mergeSort_perm _).map Transaction.transaction_index).nodup_iff).mpr
        hnt
    simp only [List.length_map, List.enum_length, List.length_zip] at hi hj
    have hiT : i < (txs₁.mergeSort
        (fun a b => optLe a.transaction_index b.transaction_index)).length := by
      omega
    have hjT : j < (txs₁.mergeSort
        (fun a b => optLe a.transaction_index b.transaction_index)).length := by
      omega
    simp only [List.getElem_map, List.getElem_enum, List.getElem_zip]
    apply optLt_of_le_of_ne
    · exact List.pairwise_iff_getElem.mp hsorted i j hiT hjT hij
    · intro hk
      have hmi : i < ((txs₁.mergeSort
          (fun a b => optLe a.transaction_index b.transaction_index)).map
          Transaction.transaction_index).length := by
        rw [List.length_map]; exact hiT
      have hmj : j < ((txs₁.mergeSort
          (fun a b => optLe a.transaction_index b.transaction_index)).map
          Transaction.transaction_index).length := by
        rw [List.length_map]; exact hjT
      have hmapi : ((txs₁.mergeSort
          (fun a b => optLe a.transaction_index b.transaction_index)).map
          Transaction.transaction_index)[i] =
          ((txs₁.mergeSort
          (fun a b => optLe a.transaction_index b.transaction_index)).map
          Transaction.transaction_index)[j] := by
        rw [List.getElem_map, List.getElem_map]
        exact hk
      exact absurd (hndS.getElem_inj_iff.mp hmapi) (Nat.ne_of_lt hij)

/-- Witness for C4: two transactions and two receipts fed in reverse order. -/
theorem C4_pairing_is_index_based_witness :
    OrderedBlock.try_create 1 7 9
      [⟨some 0, 100⟩, ⟨some 1, 101⟩] [⟨some 0, 300⟩, ⟨some 1, 301⟩] =
      OrderedBlock.try_create 1 7 9
        [⟨some 1, 101⟩, ⟨some 0, 100⟩] [⟨some 1, 301⟩, ⟨some 0, 300⟩] ∧
    ∀ b, OrderedBlock.try_create 1 7 9
        [⟨some 0, 100⟩, ⟨some 1, 101⟩] [⟨some 0, 300⟩, ⟨some 1, 301⟩] =
        .ok b →
      b.items.Pairwise (fun x y =>
        optLt x.tx.transaction_index y.tx.transaction_index = true) :=
  C4_pairing_is_index_based 1 7 9
    [⟨some 0, 100⟩, ⟨some 1, 101⟩] [⟨some 1, 101⟩, ⟨some 0, 100⟩]
    [⟨some 0, 300⟩, ⟨some 1, 301⟩] [⟨some 1, 301⟩, ⟨some 0, 300⟩]
    (by decide) (by decide) (by decide) (by decide)

end Eth
